import Mathlib

/-!
Verification of the orchestration layer of a Telegram video-relay bot
(`bot.py`): the message parser (first-URL regex search), the extractor
wrapper `get_video_url`, and the request handler `handle_message`,
together with the two trivial command handlers.

The embedding is a trace semantics: each handler invocation is mapped to
the list of collaborator calls it performs (text sends, the video send,
the extraction call) together with an outcome recording whether the
handler returned normally or an exception escaped it.  External
collaborators (the extraction library and the chat transport) are
modelled by an environment that says, for each call, whether it succeeds
or faults.
-/

namespace Bot

/-! ### Fixed message texts (verbatim from bot.py) -/

def greetingText : String :=
  "Hi! Send me a link to a video, and I\x27ll try to download it for you."

def helpUsageText : String := "Just send me a video link. That\x27s it!"

def noUrlText : String :=
  "I didn\x27t find a URL in your message. Please send a valid link."

def ackText : String := "Got it! Fetching the video, please wait..."

/-- Caption of the video send; the send sits in code made unreachable
by the line-67 raise (see `handle_message`). -/
def captionText : String := "Here\x27s your video!"

/-- Reply of the video send's `except` branch; unreachable in the
source for the same reason. -/
def sendFailText : String :=
  "Sorry, I found the video but failed to send it. The file might be too large for Telegram (max 50MB for bots by URL)."

/-- Reply of the extraction-failure branch; unreachable in the source
for the same reason. -/
def noLinkText : String :=
  "Sorry, I couldn\x27t get a downloadable link for that video."

/-! ### Message parser: `re.search(r'https?://[^\s]+', text)`

The regex is embedded over `List Char`.  `matchAt cs` is the match of
the pattern anchored at the start of `cs` (with the backtracking
semantics of `https?` and the greedy `[^\s]+`); `searchUrl` scans
positions left to right, which is `re.search`'s leftmost-match rule. -/

/-- ASCII fragment of Python's `\s` class (the inputs of interest are
ASCII; non-ASCII Unicode whitespace is not modelled). -/
def isSpace (c : Char) : Bool :=
  c == ' ' || c == '\t' || c == '\n' || c == '\r' || c == '\x0b' || c == '\x0c'

/-- Greedy `[^\s]+`: the maximal all-non-whitespace run at the front. -/
def takeNonSpace : List Char → List Char
  | [] => []
  | c :: cs => if isSpace c then [] else c :: takeNonSpace cs

def dropNonSpace : List Char → List Char
  | [] => []
  | c :: cs => if isSpace c then c :: cs else dropNonSpace cs

def httpStart : List Char := ['h', 't', 't', 'p', ':', '/', '/']

def httpsStart : List Char := ['h', 't', 't', 'p', 's', ':', '/', '/']

/-- Match `https?://[^\s]+` anchored at the start of `cs`: the greedy
`s?` first tries `https://`, then `http://`; the tail must contain at
least one non-whitespace character and is taken maximally. -/
def matchAt (cs : List Char) : Option (List Char) :=
  if cs.take 8 = httpsStart then
    let t := takeNonSpace (cs.drop 8)
    if t = [] then none else some (httpsStart ++ t)
  else if cs.take 7 = httpStart then
    let t := takeNonSpace (cs.drop 7)
    if t = [] then none else some (httpStart ++ t)
  else none

/-- `re.search`: first position (left to right) where the pattern
matches; `none` when no position matches. -/
def searchUrl : List Char → Option (List Char)
  | [] => none
  | c :: cs =>
    match matchAt (c :: cs) with
    | some m => some m
    | none => searchUrl cs

/-- `url_match.group(0)` of `re.search(r'https?://[^\s]+', s)`. -/
def findFirstUrl (s : String) : Option String :=
  (searchUrl s.toList).map fun l => String.mk l

/-- Modelled from the spec: a URL token in the spec's words — the scheme
`http://` or `https://` followed by one or more non-whitespace
characters.  Used to compare the code's parser with the spec's
contract. -/
def SpecUrlToken (m : List Char) : Prop :=
  ∃ t, (m = httpStart ++ t ∨ m = httpsStart ++ t) ∧ t ≠ [] ∧
    ∀ c ∈ t, isSpace c = false

/-! ### Extractor wrapper `get_video_url` -/

/-- The underlying failure causes of the extraction library, per the
spec's taxonomy; the code's `except Exception` treats them alike. -/
inductive ExtractFailure where
  | unsupported
  | network
  | noPlayableFormat
  | internalError (msg : String)
  deriving DecidableEq

/-- The `info` dictionary returned by `ydl.extract_info`, restricted to
the one key the code reads: `url` is `some v` when the dictionary has a
`'url'` key with value `v`, and `none` when the key is absent
(`info.get('url')` then yields Python `None`). -/
structure YdlInfo where
  url : Option String
  deriving DecidableEq

/-- The extraction library: `extract_info` either returns an info
dictionary or raises. -/
structure YdlEnv where
  extract_info : String → Except ExtractFailure YdlInfo

/-- `get_video_url` from bot.py: call `ydl.extract_info` inside
`try/except Exception`; on success return `info.get('url')`, on any
exception log and return `None`. -/
def get_video_url (env : YdlEnv) (url : String) : Option String :=
  match env.extract_info url with
  | Except.ok info => info.url
  | Except.error _ => none

/-! ### Request handler trace semantics -/

/-- One collaborator call performed while handling a message. -/
inductive Event where
  /-- `reply_text t` (sent to the originating chat). -/
  | sendText (t : String)
  /-- `context.bot.send_video` with the resolved media URL and caption. -/
  | sendVideo (url caption : String)
  /-- The awaited `get_video_url(url)` call. -/
  | extractCall (url : String)
  deriving DecidableEq

/-- Outbound sends, as opposed to the internal extraction call. -/
def Event.isOutbound : Event → Bool
  | .sendText _ => true
  | .sendVideo _ _ => true
  | .extractCall _ => false

def Event.isVideo : Event → Bool
  | .sendVideo _ _ => true
  | _ => false

/-- Whether the handler coroutine returned normally or an exception
escaped it (uncaught within `handle_message`). -/
inductive Outcome where
  | normal
  | uncaught
  deriving DecidableEq

/-- The handler's environment: the extraction library plus the fault
behaviour of the chat transport — whether `reply_text` with a given text
succeeds, and whether `send_video` succeeds. -/
structure BotEnv where
  ydl : YdlEnv
  textOk : String → Bool
  videoOk : Bool

/-- An attempted event that actually completed (a faulting transport
call delivers nothing; the extraction call is not an outbound send). -/
def delivered (env : BotEnv) : Event → Bool
  | .sendText t => env.textOk t
  | .sendVideo _ _ => env.videoOk
  | .extractCall _ => false

/-- `handle_message` from bot.py as a trace semantics.  Search for the
first URL; if none, send one reply and return (a faulting `reply_text`
escapes the handler, which guards nothing on this path).  Otherwise
send the acknowledgment; if it faults, the handler dies there.  Then
line 67 executes `await context.application.create_task
(get_video_url(url))`: `get_video_url` is a plain synchronous function,
so Python evaluates `get_video_url(url)` eagerly — the extraction call
runs to completion on the event-loop thread (recorded as
`extractCall`) — and `create_task` then wraps a `str`/`None` rather
than an awaitable, so the `await` raises `TypeError` into the handler.
Nothing guards that raise, so every URL-bearing message ends uncaught
here; the extraction result is discarded and the code after line 67
(the `if video_url:` branches, `send_video`, the size-limit and
no-downloadable-link replies) is unreachable. -/
def handle_message (env : BotEnv) (msg : String) : List Event × Outcome :=
  match findFirstUrl msg with
  | none =>
    ([Event.sendText noUrlText],
      if env.textOk noUrlText then Outcome.normal else Outcome.uncaught)
  | some url =>
    if env.textOk ackText then
      let _ := get_video_url env.ydl url
      ([Event.sendText ackText, Event.extractCall url], Outcome.uncaught)
    else
      ([Event.sendText ackText], Outcome.uncaught)

/-- `start` from bot.py: reply with the fixed greeting, ignoring the
message text (any trailing arguments of the command). -/
def start (args : String) : List Event :=
  let _ := args
  [Event.sendText greetingText]

/-- `help_command` from bot.py: reply with the fixed usage text,
ignoring the message text. -/
def help_command (args : String) : List Event :=
  let _ := args
  [Event.sendText helpUsageText]

/-! ### Parser lemmas -/

theorem takeNonSpace_append_dropNonSpace (r : List Char) :
    takeNonSpace r ++ dropNonSpace r = r := by
  induction r with
  | nil => rfl
  | cons c cs ih =>
    simp only [takeNonSpace, dropNonSpace]
    by_cases h : isSpace c <;> simp [h, ih]

theorem isSpace_of_mem_takeNonSpace (r : List Char) :
    ∀ c ∈ takeNonSpace r, isSpace c = false := by
  induction r with
  | nil => intro c hc; simp [takeNonSpace] at hc
  | cons d cs ih =>
    intro c hc
    simp only [takeNonSpace] at hc
    by_cases h : isSpace d
    · simp [h] at hc
    · simp [h] at hc
      rcases hc with rfl | hc
      · simpa using h
      · exact ih c hc

theorem takeNonSpace_append (t r : List Char)
    (ht : ∀ c ∈ t, isSpace c = false) :
    takeNonSpace (t ++ r) = t ++ takeNonSpace r := by
  induction t with
  | nil => rfl
  | cons c cs ih =>
    have hc : isSpace c = false := ht c (by simp)
    simp only [List.cons_append, takeNonSpace, hc, if_neg]
    simp only [Bool.false_eq_true, if_false, List.cons.injEq, true_and]
    exact ih fun d hd => ht d (by simp [hd])

theorem matchAt_some {cs m : List Char} (h : matchAt cs = some m) :
    SpecUrlToken m ∧ ∃ rest, cs = m ++ rest := by
  simp only [matchAt] at h
  split at h
  · rename_i h8
    split at h
    · exact absurd h (by simp)
    · rename_i hne
      have hm : m = httpsStart ++ takeNonSpace (cs.drop 8) :=
        (Option.some.inj h).symm
      refine ⟨⟨takeNonSpace (cs.drop 8), Or.inr hm, hne,
        isSpace_of_mem_takeNonSpace _⟩, dropNonSpace (cs.drop 8), ?_⟩
      calc cs = cs.take 8 ++ cs.drop 8 := (List.take_append_drop 8 cs).symm
        _ = httpsStart ++ (takeNonSpace (cs.drop 8) ++ dropNonSpace (cs.drop 8)) := by
            rw [h8, takeNonSpace_append_dropNonSpace]
        _ = m ++ dropNonSpace (cs.drop 8) := by
            rw [hm, List.append_assoc]
  · split at h
    · rename_i h7
      split at h
      · exact absurd h (by simp)
      · rename_i hne
        have hm : m = httpStart ++ takeNonSpace (cs.drop 7) :=
          (Option.some.inj h).symm
        refine ⟨⟨takeNonSpace (cs.drop 7), Or.inl hm, hne,
          isSpace_of_mem_takeNonSpace _⟩, dropNonSpace (cs.drop 7), ?_⟩
        calc cs = cs.take 7 ++ cs.drop 7 := (List.take_append_drop 7 cs).symm
          _ = httpStart ++ (takeNonSpace (cs.drop 7) ++ dropNonSpace (cs.drop 7)) := by
              rw [h7, takeNonSpace_append_dropNonSpace]
          _ = m ++ dropNonSpace (cs.drop 7) := by
              rw [hm, List.append_assoc]
    · exact absurd h (by simp)

theorem token_matchAt {m : List Char} (hm : SpecUrlToken m) (rest : List Char) :
    ∃ m2, matchAt (m ++ rest) = some m2 := by
  obtain ⟨t, hsch, hne, hns⟩ := hm
  obtain ⟨c, t', rfl⟩ : ∃ c t', t = c :: t' := by
    cases t with
    | nil => exact absurd rfl hne
    | cons c t' => exact ⟨c, t', rfl⟩
  have hts : takeNonSpace ((c :: t') ++ rest) = (c :: t') ++ takeNonSpace rest :=
    takeNonSpace_append _ _ hns
  rcases hsch with rfl | rfl
  · -- `http://` case: the `https://` test fails (5th character), the
    -- `http://` test succeeds.
    refine ⟨httpStart ++ ((c :: t') ++ takeNonSpace rest), ?_⟩
    have hassoc : (httpStart ++ (c :: t')) ++ rest =
        httpStart ++ ((c :: t') ++ rest) := List.append_assoc _ _ _
    have h8 : ((httpStart ++ (c :: t')) ++ rest).take 8 ≠ httpsStart := by
      rw [hassoc]
      intro heq
      simp [httpStart, httpsStart, List.take] at heq
    have h7 : ((httpStart ++ (c :: t')) ++ rest).take 7 = httpStart := by
      rw [hassoc]
      have : httpStart.length = 7 := rfl
      rw [← this, List.take_left]
    have hd7 : ((httpStart ++ (c :: t')) ++ rest).drop 7 = (c :: t') ++ rest := by
      rw [hassoc]
      have : httpStart.length = 7 := rfl
      rw [← this, List.drop_left]
    simp only [matchAt, h8, if_neg, h7, if_pos, hd7, hts]
    simp
  · -- `https://` case: the `https://` test succeeds.
    refine ⟨httpsStart ++ ((c :: t') ++ takeNonSpace rest), ?_⟩
    have hassoc : (httpsStart ++ (c :: t')) ++ rest =
        httpsStart ++ ((c :: t') ++ rest) := List.append_assoc _ _ _
    have h8 : ((httpsStart ++ (c :: t')) ++ rest).take 8 = httpsStart := by
      rw [hassoc]
      have : httpsStart.length = 8 := rfl
      rw [← this, List.take_left]
    have hd8 : ((httpsStart ++ (c :: t')) ++ rest).drop 8 = (c :: t') ++ rest := by
      rw [hassoc]
      have : httpsStart.length = 8 := rfl
      rw [← this, List.drop_left]
    simp only [matchAt, h8, if_pos, hd8, hts]
    simp

theorem matchAt_nil : matchAt [] = none := by decide

theorem searchUrl_eq_none_iff (cs : List Char) :
    searchUrl cs = none ↔ ∀ i, matchAt (cs.drop i) = none := by
  induction cs with
  | nil =>
    simp only [searchUrl, List.drop_nil, true_iff]
    intro i; exact matchAt_nil
  | cons c cs ih =>
    simp only [searchUrl]
    cases hm : matchAt (c :: cs) with
    | some m =>
      simp only [false_iff, reduceCtorEq]
      intro hall
      have h0 := hall 0
      simp only [List.drop_zero] at h0
      rw [hm] at h0
      exact Option.noConfusion h0
    | none =>
      rw [ih]
      constructor
      · intro hall i
        cases i with
        | zero => simpa using hm
        | succ j => simpa using hall j
      · intro hall j
        simpa using hall (j + 1)

theorem searchUrl_eq_some :
    ∀ (cs m : List Char), searchUrl cs = some m →
      ∃ i, i ≤ cs.length ∧ matchAt (cs.drop i) = some m ∧
        ∀ j < i, matchAt (cs.drop j) = none := by
  intro cs
  induction cs with
  | nil => intro m h; exact absurd h (by simp [searchUrl])
  | cons c cs ih =>
    intro m h
    simp only [searchUrl] at h
    cases hm : matchAt (c :: cs) with
    | some m' =>
      rw [hm] at h
      obtain rfl : m' = m := Option.some.inj h
      refine ⟨0, by simp, ?_, by omega⟩
      simpa using hm
    | none =>
      rw [hm] at h
      obtain ⟨i, hle, hi, hmin⟩ := ih m h
      refine ⟨i + 1, by simpa using hle, by simpa using hi, ?_⟩
      intro j hj
      cases j with
      | zero => simpa using hm
      | succ k => simpa using hmin k (by omega)

/-! ### Claim theorems -/

/-- C3: for every input text containing at least one substring of the
form `http://` or `https://` followed by one or more non-whitespace
characters, the parser returns a first-by-position such substring (no
token starts strictly earlier); for every text containing none, it
signals absence; and on the spec's example it returns
`https://a.test/x`. -/
theorem C3_first_url_by_position :
    (∀ cs : List Char,
      ((∃ pre m suf, cs = pre ++ m ++ suf ∧ SpecUrlToken m) →
        ∃ m pre suf, searchUrl cs = some m ∧ cs = pre ++ m ++ suf ∧
          SpecUrlToken m ∧
          ∀ pre2 m2 suf2, cs = pre2 ++ m2 ++ suf2 → SpecUrlToken m2 →
            pre.length ≤ pre2.length)
      ∧ ((∀ pre m suf, cs = pre ++ m ++ suf → ¬ SpecUrlToken m) →
          searchUrl cs = none))
    ∧ findFirstUrl "check this out https://a.test/x and https://b.test/y" =
        some "https://a.test/x" := by
  constructor
  · intro cs
    constructor
    · rintro ⟨pre, m, suf, rfl, hm⟩
      have hdrop : (pre ++ m ++ suf).drop pre.length = m ++ suf := by
        rw [List.append_assoc]; exact List.drop_left _ _
      obtain ⟨m1, hm1⟩ := token_matchAt hm suf
      have hne : searchUrl (pre ++ m ++ suf) ≠ none := by
        intro hnone0
        rw [searchUrl_eq_none_iff] at hnone0
        have h0 := hnone0 pre.length
        rw [hdrop, hm1] at h0
        exact Option.noConfusion h0
      obtain ⟨m', hm'⟩ : ∃ m', searchUrl (pre ++ m ++ suf) = some m' := by
        cases hs : searchUrl (pre ++ m ++ suf) with
        | none => exact absurd hs hne
        | some x => exact ⟨x, rfl⟩
      obtain ⟨i, hile, hi, hmin⟩ := searchUrl_eq_some _ _ hm'
      obtain ⟨htok', rest', hrest'⟩ := matchAt_some hi
      refine ⟨m', (pre ++ m ++ suf).take i, rest', hm', ?_, htok', ?_⟩
      · conv_lhs => rw [← List.take_append_drop i (pre ++ m ++ suf)]
        rw [hrest', ← List.append_assoc]
      · intro pre2 m2 suf2 heq hm2
        have hdrop2 : (pre ++ m ++ suf).drop pre2.length = m2 ++ suf2 := by
          rw [heq, List.append_assoc]; exact List.drop_left _ _
        obtain ⟨m3, hm3⟩ := token_matchAt hm2 suf2
        have hni : ¬ pre2.length < i := by
          intro hlt
          have h0 := hmin _ hlt
          rw [hdrop2, hm3] at h0
          exact Option.noConfusion h0
        have hlen : ((pre ++ m ++ suf).take i).length = i := by
          rw [List.length_take]; omega
        omega
    · intro hnone
      rw [searchUrl_eq_none_iff]
      intro i
      cases hmi : matchAt (cs.drop i) with
      | none => rfl
      | some m =>
        exfalso
        obtain ⟨htok, rest, hrest⟩ := matchAt_some hmi
        refine hnone (cs.take i) m rest ?_ htok
        conv_lhs => rw [← List.take_append_drop i cs]
        rw [hrest, ← List.append_assoc]
  · decide

/-- Witness for C3: on the spec's example text the parser returns a
token that starts no later than any URL token in the text. -/
theorem C3_first_url_by_position_witness :
    ∃ m pre suf,
      searchUrl "check this out https://a.test/x and https://b.test/y".toList =
        some m ∧
      "check this out https://a.test/x and https://b.test/y".toList =
        pre ++ m ++ suf ∧
      SpecUrlToken m ∧
      ∀ pre2 m2 suf2,
        "check this out https://a.test/x and https://b.test/y".toList =
          pre2 ++ m2 ++ suf2 →
        SpecUrlToken m2 → pre.length ≤ pre2.length :=
  (C3_first_url_by_position.1 _).1
    ⟨"check this out ".toList, "https://a.test/x".toList,
      " and https://b.test/y".toList, by decide,
      ⟨"a.test/x".toList, Or.inr (by decide), by decide, by decide⟩⟩

/-- C1 failing input: a message with a URL whose extraction fails.  The
handler sends the acknowledgment and performs the extraction call, but
then dies with the uncaught `TypeError` of line 67 — the
"no downloadable link" reply claimed by the spec is never sent. -/
theorem C1_url_message_crashes :
    handle_message
        ⟨⟨fun _ => Except.error ExtractFailure.network⟩, fun _ => true, true⟩
        "see https://vid.test/a now" =
      ([Event.sendText ackText, Event.extractCall "https://vid.test/a"],
        Outcome.uncaught) := by decide

/-- C7: when the message contains no URL, the whole trace is the single
"no URL found" text reply and the handler returns normally — no
acknowledgment, no extraction call, no video send. -/
theorem C7_no_url_single_reply (env : BotEnv) (msg : String)
    (hno : findFirstUrl msg = none)
    (htext : env.textOk noUrlText = true) :
    handle_message env msg = ([Event.sendText noUrlText], Outcome.normal) := by
  simp [handle_message, hno, htext]

/-- Witness for C7: the spec's example message `hello there`. -/
theorem C7_no_url_single_reply_witness :
    handle_message
        ⟨⟨fun _ => Except.error ExtractFailure.network⟩, fun _ => true, true⟩
        "hello there" =
      ([Event.sendText noUrlText], Outcome.normal) :=
  C7_no_url_single_reply _ _ (by decide) rfl

/-- C4: on a working text transport, every inbound message yields at
least one and at most two completed outbound sends.  The bound holds,
but degenerately: the no-URL path delivers its one reply, and on every
URL path only the acknowledgment completes before the handler dies with
the line-67 `TypeError`, so the count is one in every branch — the
result reply the spec envisions as the second send never occurs. -/
theorem C4_send_count (env : BotEnv) (msg : String)
    (htext : ∀ t, env.textOk t = true) :
    1 ≤ ((handle_message env msg).1.filter (delivered env)).length ∧
    ((handle_message env msg).1.filter (delivered env)).length ≤ 2 := by
  cases hurl : findFirstUrl msg with
  | none => simp [handle_message, hurl, htext, delivered]
  | some url => simp [handle_message, hurl, htext, delivered]

/-- Witness for C4: a message carrying a URL delivers exactly the
acknowledgment. -/
theorem C4_send_count_witness :
    1 ≤ ((handle_message
        ⟨⟨fun _ => Except.error ExtractFailure.network⟩,
          fun _ => true, true⟩ "see https://vid.test/a now").1.filter
        (delivered ⟨⟨fun _ => Except.error ExtractFailure.network⟩,
          fun _ => true, true⟩)).length ∧
    ((handle_message
        ⟨⟨fun _ => Except.error ExtractFailure.network⟩,
          fun _ => true, true⟩ "see https://vid.test/a now").1.filter
        (delivered ⟨⟨fun _ => Except.error ExtractFailure.network⟩,
          fun _ => true, true⟩)).length ≤ 2 :=
  C4_send_count _ _ (fun _ => rfl)

/-- C5 failing input: a message with a URL, a succeeding extractor, and
a transport that would accept the video.  The handler still sends only
the acknowledgment before dying with the line-67 `TypeError`: the trace
contains no video send at all — `send_video` and both fallback replies
are unreachable in the source. -/
theorem C5_video_send_unreachable :
    handle_message
        ⟨⟨fun _ => Except.ok ⟨some "https://cdn.test/v.mp4"⟩⟩,
          fun _ => true, true⟩ "https://vid.test/abc" =
      ([Event.sendText ackText, Event.extractCall "https://vid.test/abc"],
        Outcome.uncaught) ∧
    ∀ e ∈ (handle_message
        ⟨⟨fun _ => Except.ok ⟨some "https://cdn.test/v.mp4"⟩⟩,
          fun _ => true, true⟩ "https://vid.test/abc").1,
      e.isVideo = false := by decide

/-- C2 counterexample: a transport whose `reply_text` faults makes the
handler terminate with an uncaught exception even on the plain
"no URL" path, because no text send is guarded by any `try`/`except` —
so not every per-request fault is caught and converted to a reply. -/
theorem C2_uncaught_text_fault :
    (handle_message
        ⟨⟨fun _ => Except.error ExtractFailure.network⟩, fun _ => false, true⟩
        "hello there").2 = Outcome.uncaught := by decide

/-- C2 amended: the request-handling task terminates normally exactly
when the message contains no URL and the no-URL reply succeeds.  In
every other case a fault escapes the handler: a faulting text reply is
unguarded (only `send_video` sits in a `try`/`except`), and every
URL-bearing message ends in the uncaught line-67 `TypeError` even on a
perfect transport.  Extraction-library faults alone are absorbed, inside
`get_video_url`. -/
theorem C2_normal_iff_no_url (env : BotEnv) (msg : String) :
    (handle_message env msg).2 = Outcome.normal ↔
      findFirstUrl msg = none ∧ env.textOk noUrlText = true := by
  cases hurl : findFirstUrl msg with
  | none =>
    by_cases h : env.textOk noUrlText <;> simp [handle_message, hurl, h]
  | some url =>
    by_cases h : env.textOk ackText <;> simp [handle_message, hurl, h]

/-- Witness for the amended C2: a URL-free message on a working
transport is the one shape of request that ends normally. -/
theorem C2_normal_iff_no_url_witness :
    (handle_message
        ⟨⟨fun _ => Except.error ExtractFailure.network⟩, fun _ => true, true⟩
        "hello there").2 = Outcome.normal :=
  (C2_normal_iff_no_url _ _).mpr ⟨by decide, rfl⟩

/-- C6: `get_video_url` always returns an optional string (never a
raised fault), collapses every underlying failure cause to `none`, and
on a non-raising extraction returns exactly the info dictionary's
`url` entry. -/
theorem C6_get_video_url_total (env : YdlEnv) (url : String) :
    ((∃ m, get_video_url env url = some m) ∨ get_video_url env url = none) ∧
    (∀ e, env.extract_info url = Except.error e →
      get_video_url env url = none) ∧
    (∀ info, env.extract_info url = Except.ok info →
      get_video_url env url = info.url) := by
  refine ⟨?_, ?_, ?_⟩
  · cases h : get_video_url env url with
    | none => exact Or.inr rfl
    | some m => exact Or.inl ⟨m, rfl⟩
  · intro e he; simp [get_video_url, he]
  · intro info hi; simp [get_video_url, hi]

/-- Witness for C6: an extractor-internal exception yields `none`. -/
theorem C6_get_video_url_total_witness :
    get_video_url
      ⟨fun _ => Except.error (ExtractFailure.internalError "unsupported URL")⟩
      "https://unknown.example/v" = none :=
  (C6_get_video_url_total _ _).2.1 _ rfl

/-- C10 failing input: `extract_info` returns an info dictionary with
no `url` key.  `get_video_url` does return `none` as the claim says,
and no video send with a missing media URL is ever issued — but not
because the handler takes the extraction-failure branch: the line-67
`TypeError` kills the handler before any branching on the extraction
result, so the no-downloadable-link reply is never sent either. -/
theorem C10_missing_url_key_crash :
    get_video_url ⟨fun _ => Except.ok ⟨none⟩⟩ "https://x.test/v" = none ∧
    handle_message ⟨⟨fun _ => Except.ok ⟨none⟩⟩, fun _ => true, true⟩
        "https://x.test/v" =
      ([Event.sendText ackText, Event.extractCall "https://x.test/v"],
        Outcome.uncaught) ∧
    ∀ e ∈ (handle_message ⟨⟨fun _ => Except.ok ⟨none⟩⟩, fun _ => true, true⟩
        "https://x.test/v").1, e.isVideo = false := by decide

/-- C8: the start command always replies exactly the fixed greeting and
the help command always replies exactly the fixed usage text, whatever
trailing arguments the command text carries; each trace is one text
send, so neither involves an extraction call or a video send. -/
theorem C8_start_help_fixed_replies (args args2 : String) :
    start args = [Event.sendText greetingText] ∧
    help_command args2 = [Event.sendText helpUsageText] ∧
    (∀ e ∈ start args, e = Event.sendText greetingText) ∧
    (∀ e ∈ help_command args2, e = Event.sendText helpUsageText) := by
  refine ⟨rfl, rfl, ?_, ?_⟩ <;> intro e he <;> simpa [start, help_command]
    using he

/-- Witness for C8: concrete trailing arguments. -/
theorem C8_start_help_fixed_replies_witness :
    start "/start tail args" = [Event.sendText greetingText] ∧
    help_command "/help tail args" = [Event.sendText helpUsageText] ∧
    (∀ e ∈ start "/start tail args", e = Event.sendText greetingText) ∧
    (∀ e ∈ help_command "/help tail args",
      e = Event.sendText helpUsageText) :=
  C8_start_help_fixed_replies _ _

end Bot
